import Mathlib

/-!
Verification development for the TalentFlow mock-backend core
(src/lib/db.ts and src/mirage/server.ts).

Shallow embedding conventions:
* Dexie tables are modelled as Lean lists in primary-key (insertion)
  order; `put` replaces the record with the same primary key or appends.
* JS numbers used as ids and counters are `Nat`; timestamps and the `order`
  field are `Int` (the source computes `(last?.order ?? -1) + 1`).
* The ambient randomness (`Math.random()` failure draws, faker content) is
  an explicit input: each mutating handler takes the boolean outcome of its
  failure draw, and the seeder takes a `SeedEnv` of drawn values.
* Latency (`sleep`) has no observable effect on the store or results and is
  not modelled.
* JS strings are Lean `String`; `toLowerCase` is modelled by `strLower`
  (ASCII case mapping), `includes` by substring test.
-/

/-- JobStatus from db.ts: active or archived. -/
inductive JobStatus where
  | active
  | archived
deriving DecidableEq, Repr

/-- Renders a JobStatus the way it is stored in JS, for query comparison. -/
def statusToString : JobStatus → String
  | .active => "active"
  | .archived => "archived"

/-- Job record from db.ts. -/
structure Job where
  id : Nat
  title : String
  slug : String
  status : JobStatus
  tags : List String
  order : Int
  createdAt : Int
  updatedAt : Int
deriving DecidableEq, Repr

/-- CandidateStage from db.ts. -/
inductive CandidateStage where
  | applied
  | screen
  | tech
  | offer
  | hired
  | rejected
deriving DecidableEq, Repr

/-- Renders a CandidateStage the way it is stored in JS, for query
comparison. -/
def stageToString : CandidateStage → String
  | .applied => "applied"
  | .screen => "screen"
  | .tech => "tech"
  | .offer => "offer"
  | .hired => "hired"
  | .rejected => "rejected"

/-- Candidate record from db.ts. -/
structure Candidate where
  id : Nat
  jobId : Option Nat
  name : String
  email : String
  stage : CandidateStage
  createdAt : Int
  updatedAt : Int
deriving DecidableEq, Repr

/-- Timeline event type from db.ts. -/
inductive TimelineType where
  | stage_change
  | note
deriving DecidableEq, Repr

/-- CandidateTimelineEvent from db.ts.  The auto-increment `id` column is
never consulted by any handler and is omitted from the model. -/
structure TimelineEvent where
  candidateId : Nat
  type : TimelineType
  «from» : Option CandidateStage
  «to» : Option CandidateStage
  note : Option String
  «at» : Int
deriving DecidableEq, Repr

/-- QuestionType from db.ts. -/
inductive QuestionType where
  | single
  | multi
  | short
  | long
  | numeric
  | file
deriving DecidableEq, Repr

/-- The loosely typed value compared by showIf.equals (string, number or
boolean in the source). -/
inductive SVal where
  | s (v : String)
  | n (v : Int)
  | b (v : Bool)
deriving DecidableEq, Repr

/-- Conditional display rule of a question, from db.ts. -/
structure ShowIf where
  questionId : String
  equals : SVal
deriving DecidableEq, Repr

/-- AssessmentQuestion from db.ts. -/
structure AssessmentQuestion where
  id : String
  type : QuestionType
  label : String
  required : Option Bool
  options : Option (List String)
  maxLength : Option Nat
  min : Option Int
  max : Option Int
  showIf : Option ShowIf
deriving DecidableEq, Repr

/-- AssessmentSection from db.ts. -/
structure AssessmentSection where
  id : String
  title : String
  questions : List AssessmentQuestion
deriving DecidableEq, Repr

/-- Assessment from db.ts (id doubles as the jobId). -/
structure Assessment where
  id : Nat
  jobId : Nat
  title : String
  sections : List AssessmentSection
  updatedAt : Int
deriving DecidableEq, Repr

/-- AssessmentResponse from db.ts; the dynamic `responses` record is
modelled as an association list from question id to value. -/
structure AssessmentResponse where
  jobId : Nat
  candidateId : Nat
  responses : List (String × SVal)
  submittedAt : Int
deriving DecidableEq, Repr

/-- The durable Dexie database: the five entity tables plus the seed flag
held in the `meta` table (only the key `seeded` is ever used). -/
structure Store where
  jobs : List Job
  candidates : List Candidate
  timelines : List TimelineEvent
  assessments : List Assessment
  assessmentResponses : List AssessmentResponse
  seeded : Bool
deriving DecidableEq, Repr

/-- The store before any seeding (a freshly created database). -/
def emptyStore : Store :=
  { jobs := [], candidates := [], timelines := [], assessments := [],
    assessmentResponses := [], seeded := false }

/-- Dexie `put` semantics for a keyed table: replace the record carrying
the same primary key, append otherwise. -/
def putBy {α : Type} (key : α → Nat) (l : List α) (r : α) : List α :=
  if l.any (fun x => key x == key r) then
    l.map (fun x => if key x == key r then r else x)
  else l ++ [r]

/-- Dexie `bulkPut`: sequential puts. -/
def bulkPutBy {α : Type} (key : α → Nat) (l : List α) (rs : List α) : List α :=
  rs.foldl (putBy key) l

/-- JS `hay.includes(needle)`: substring containment. -/
def strContains (hay needle : String) : Bool :=
  hay.data.tails.any (fun t => needle.data.isPrefixOf t)

/-- JS `toLowerCase()` (modelled as the ASCII case mapping, applied
characterwise; defined over the character list so that it evaluates by
kernel reduction). -/
def strLower (s : String) : String :=
  String.mk (s.data.map Char.toLower)

/-- ASCII whitespace, the character class stripped by the trim used on
note text. -/
def isSpaceChar (c : Char) : Bool :=
  c = ' ' || c = '\t' || c = '\n' || c = '\r'

/-- JS `String(note).trim()`: strip leading and trailing whitespace
(modelled over ASCII whitespace). -/
def strTrim (s : String) : String :=
  String.mk (((s.data.dropWhile isSpaceChar).reverse.dropWhile isSpaceChar).reverse)

/-- Result of a Mirage route: a payload or a Response(status, message). -/
inductive ApiResult (α : Type) where
  | ok (val : α)
  | err (status : Nat) (message : String)
deriving DecidableEq, Repr

/-- True when an ApiResult is a success payload. -/
def ApiResult.isOk {α : Type} : ApiResult α → Bool
  | .ok _ => true
  | .err _ _ => false

/-- Pagination result shape from db.ts paginate. -/
structure Paginated (α : Type) where
  data : List α
  page : Nat
  pageSize : Nat
  total : Nat
  pages : Nat
deriving DecidableEq, Repr

/-- paginate from db.ts: `pages = Math.max(1, Math.ceil(total/pageSize))`,
`data = items.slice((page-1)*pageSize, (page-1)*pageSize + pageSize)`.
For `pageSize ≥ 1` the ceiling equals `(total + pageSize - 1) / pageSize`
in Nat arithmetic, and for `page ≥ 1` the slice of a nonnegative start is
drop-then-take; the claims cover exactly that parameter range. -/
def paginate {α : Type} (items : List α) (page : Nat := 1) (pageSize : Nat := 10) :
    Paginated α :=
  let total := items.length
  let pages := max 1 ((total + pageSize - 1) / pageSize)
  let start := (page - 1) * pageSize
  { data := (items.drop start).take pageSize, page := page,
    pageSize := pageSize, total := total, pages := pages }

/-- Search predicate of the GET /jobs handler (server.ts line 39):
`j.title.toLowerCase().includes(searchLower) || j.slug.includes(searchLower)`.
Note the slug is compared as stored, not lowercased. -/
def jobMatchesSearch (searchLower : String) (j : Job) : Bool :=
  strContains (strLower j.title) searchLower || strContains j.slug searchLower

/-- Search predicate of the GET /candidates handler (server.ts line 129):
both name and email are lowercased before the comparison. -/
def candMatchesSearch (searchLower : String) (c : Candidate) : Bool :=
  strContains (strLower c.name) searchLower || strContains (strLower c.email) searchLower

/-- Dexie orderBy applied to the jobs table: ascending by the `order`
index, ties by primary key. -/
def sortJobsIndex (l : List Job) : List Job :=
  List.insertionSort (fun a b => a.order < b.order ∨ (a.order = b.order ∧ a.id ≤ b.id)) l

/-- The stable JS `items.sort((a, b) => a.order - b.order)`. -/
def sortJobsByOrder (l : List Job) : List Job :=
  List.insertionSort (fun a b => a.order ≤ b.order) l

/-- The stable JS `items.sort((a, b) => b.createdAt - a.createdAt)`. -/
def sortJobsByCreatedDesc (l : List Job) : List Job :=
  List.insertionSort (fun a b => b.createdAt ≤ a.createdAt) l

/-- The stable JS sort of candidates by descending createdAt. -/
def sortCandidatesByCreatedDesc (l : List Candidate) : List Candidate :=
  List.insertionSort (fun a b => b.createdAt ≤ a.createdAt) l

/-- Dexie `sortBy('at')` over timeline events. -/
def sortEventsByAt (l : List TimelineEvent) : List TimelineEvent :=
  List.insertionSort (fun a b => a.«at» ≤ b.«at») l

/-- Filter pipeline of the GET /jobs handler (server.ts lines 37-40):
status exact match, then text search, then tag intersection, each skipped
when its parameter is empty (JS truthiness on the string / array length). -/
def jobsFilterStep (l : List Job) (search status : String) (tags : List String) :
    List Job :=
  let searchLower := strLower search
  ((l.filter (fun j => if status = "" then true else statusToString j.status == status)).filter
      (fun j => if searchLower = "" then true else jobMatchesSearch searchLower j)).filter
    (fun j => if tags.isEmpty then true else j.tags.any (fun t => tags.contains t))

/-- Sort step of the GET /jobs handler (server.ts lines 42-43): the two
ifs run in sequence on the filtered array; at most one matches. -/
def jobsSortStep (sort : String) (l : List Job) : List Job :=
  let l1 := if sort = "order" then sortJobsByOrder l else l
  if sort = "createdAt:desc" then sortJobsByCreatedDesc l1 else l1

/-- GET /jobs (server.ts lines 18-48), with query parameters already
parsed.  Filters, then sort, then paginate. -/
def listJobs (s : Store) (search status : String) (tags : List String)
    (page pageSize : Nat) (sort : String) : Paginated Job :=
  paginate (jobsSortStep sort (jobsFilterStep s.jobs search status tags)) page pageSize

/-- GET /candidates (server.ts lines 116-134): stage filter, search over
name/email, sort by createdAt descending, paginate. -/
def listCandidates (s : Store) (search stage : String) (page pageSize : Nat) :
    Paginated Candidate :=
  let searchLower := strLower search
  let l1 := if stage = "" then s.candidates
    else s.candidates.filter (fun c => stageToString c.stage == stage)
  let l2 := if searchLower = "" then l1
    else l1.filter (fun c => candMatchesSearch searchLower c)
  paginate (sortCandidatesByCreatedDesc l2) page pageSize

/-- Request body of POST /jobs. -/
structure CreateJobBody where
  title : String
  slug : String
  tags : Option (List String)
deriving DecidableEq, Repr

/-- POST /jobs (server.ts lines 50-78).  `fail` is the outcome of the
`Math.random() < 0.08` draw, taken at the same program point as in the
source: after slug validation, before the insert.  The generated id is
`count + 1`, always fresh because ids are only ever assigned this way. -/
def createJob (s : Store) (b : CreateJobBody) (fail : Bool) (now : Int) :
    ApiResult Job × Store :=
  let last := (sortJobsIndex s.jobs).getLast?
  let id := s.jobs.length + 1
  if (s.jobs.find? (fun j => j.slug == b.slug)).isSome then
    (.err 400 "Slug must be unique", s)
  else
    let job : Job :=
      { id := id, title := b.title, slug := b.slug, status := .active,
        tags := b.tags.getD [], order := ((last.map Job.order).getD (-1)) + 1,
        createdAt := now, updatedAt := now }
    if fail then (.err 500 "Random failure (simulated)", s)
    else (.ok job, { s with jobs := s.jobs ++ [job] })

/-- Partial fields of PATCH /jobs/:id.  The spread `{...job, ...patch}`
overrides exactly the present fields; the id is never patched. -/
structure JobPatch where
  title : Option String
  slug : Option String
  status : Option JobStatus
  tags : Option (List String)
  order : Option Int
deriving DecidableEq, Repr

/-- The spread `{ ...job, ...patch, updatedAt: Date.now() }`. -/
def applyJobPatch (job : Job) (p : JobPatch) (now : Int) : Job :=
  { id := job.id, title := p.title.getD job.title, slug := p.slug.getD job.slug,
    status := p.status.getD job.status, tags := p.tags.getD job.tags,
    order := p.order.getD job.order, createdAt := job.createdAt, updatedAt := now }

/-- PATCH /jobs/:id (server.ts lines 80-95).  The slug-uniqueness check is
guarded by JS truthiness of `patch.slug`, so a present-but-empty slug
skips the check; the failure draw happens after validation. -/
def patchJob (s : Store) (id : Nat) (p : JobPatch) (fail : Bool) (now : Int) :
    ApiResult Job × Store :=
  match s.jobs.find? (fun j => j.id == id) with
  | none => (.err 404 "Not found", s)
  | some job =>
    let updated := applyJobPatch job p now
    let dup : Bool :=
      match p.slug with
      | none => false
      | some sl =>
        if sl = "" then false
        else if sl = job.slug then false
        else (s.jobs.find? (fun j => j.slug == sl)).isSome
    if dup then (.err 400 "Slug must be unique", s)
    else if fail then (.err 500 "Random failure (simulated)", s)
    else (.ok updated, { s with jobs := putBy Job.id s.jobs updated })

/-- JS `Array.prototype.splice(start, 0, item)` index clamping: a negative
start counts back from the end (clamped at 0), a large start clamps to the
length. -/
def spliceIndex (len : Nat) (i : Int) : Nat :=
  if i < 0 then ((len : Int) + i).toNat else min i.toNat len

/-- The list the reorder handler builds (server.ts lines 102-107): all
jobs sorted by the order index, the moved job removed, the remainder
re-sorted by order (stable), and the moved job spliced in at toOrder. -/
def reorderNewList (s : Store) (id : Nat) (toOrder : Int) (moved : Job) : List Job :=
  let others := sortJobsByOrder ((sortJobsIndex s.jobs).filter (fun j => !(j.id == id)))
  let pos := spliceIndex others.length toOrder
  others.take pos ++ moved :: others.drop pos

/-- One `db.jobs.update(j.id, { order: idx })`: sets the order field of
the record carrying that primary key, no-op if the key is absent. -/
def updateOrderStep (tbl : List Job) (p : Nat × Job) : List Job :=
  tbl.map (fun j => if j.id == p.2.id then { j with order := (p.1 : Int) } else j)

/-- PATCH /jobs/:id/reorder (server.ts lines 97-113).  The failure draw
(`Math.random() < 0.1`) happens before the not-found check; fromOrder is
parsed from the body but never consulted. -/
def reorderJob (s : Store) (id : Nat) (fromOrder toOrder : Int) (fail : Bool) :
    ApiResult Unit × Store :=
  if fail then (.err 500 "Reorder failed (simulated)", s)
  else
    match (sortJobsIndex s.jobs).find? (fun j => j.id == id) with
    | none => (.err 404 "Not found", s)
    | some moved =>
      (.ok (),
        { s with jobs := ((reorderNewList s id toOrder moved).enum).foldl updateOrderStep s.jobs })

/-- Request body of POST /candidates; `jobId` holds the value after the
`body.jobId ?? null` defaulting. -/
structure CreateCandidateBody where
  jobId : Option Nat
  name : String
  email : String
deriving DecidableEq, Repr

/-- POST /candidates (server.ts lines 136-154): on success the candidate
is added and one applied-origin timeline event is appended; the failure
draw precedes both writes. -/
def createCandidate (s : Store) (b : CreateCandidateBody) (fail : Bool) (now : Int) :
    ApiResult Candidate × Store :=
  let id := s.candidates.length + 1
  let cand : Candidate :=
    { id := id, jobId := b.jobId, name := b.name, email := b.email,
      stage := .applied, createdAt := now, updatedAt := now }
  if fail then (.err 500 "Random failure (simulated)", s)
  else
    (.ok cand,
      { s with candidates := s.candidates ++ [cand],
               timelines := s.timelines ++
                 [⟨id, .stage_change, none, some .applied, none, now⟩] })

/-- Partial fields of PATCH /candidates/:id. -/
structure CandidatePatch where
  name : Option String
  email : Option String
  stage : Option CandidateStage
  jobId : Option (Option Nat)
deriving DecidableEq, Repr

/-- The spread `{ ...cand, ...patch, updatedAt: Date.now() }`. -/
def applyCandidatePatch (cand : Candidate) (p : CandidatePatch) (now : Int) : Candidate :=
  { id := cand.id, jobId := p.jobId.getD cand.jobId, name := p.name.getD cand.name,
    email := p.email.getD cand.email, stage := p.stage.getD cand.stage,
    createdAt := cand.createdAt, updatedAt := now }

/-- PATCH /candidates/:id (server.ts lines 156-170).  When the patch
carries a stage different from the current one, the timeline event is
appended BEFORE the failure draw (stage values are nonempty strings, so
the `patch.stage &&` truthiness guard is just presence). -/
def patchCandidate (s : Store) (id : Nat) (p : CandidatePatch) (fail : Bool) (now : Int) :
    ApiResult Candidate × Store :=
  match s.candidates.find? (fun c => c.id == id) with
  | none => (.err 404 "Not found", s)
  | some cand =>
    let tl :=
      match p.stage with
      | some b =>
        if b = cand.stage then s.timelines
        else s.timelines ++ [⟨id, .stage_change, some cand.stage, some b, none, now⟩]
      | none => s.timelines
    if fail then (.err 500 "Random failure (simulated)", { s with timelines := tl })
    else
      let updated := applyCandidatePatch cand p now
      (.ok updated,
        { s with timelines := tl,
                 candidates := putBy Candidate.id s.candidates updated })

/-- GET /candidates/:id/timeline (server.ts lines 172-178): the events for
that candidateId sorted by `at`.  There is no existence check on the
candidate, so the route never returns an error. -/
def getCandidateTimeline (s : Store) (id : Nat) : ApiResult (List TimelineEvent) :=
  .ok (sortEventsByAt (s.timelines.filter (fun e => e.candidateId == id)))

/-- POST /candidates/:id/notes (server.ts lines 181-191): a missing or
whitespace-only note is rejected with 400, otherwise one note event is
appended.  No randomness on this route. -/
def addCandidateNote (s : Store) (id : Nat) (noteText : String) (now : Int) :
    ApiResult Unit × Store :=
  if strTrim noteText = "" then (.err 400 "Note is required", s)
  else
    (.ok (), { s with timelines := s.timelines ++ [⟨id, .note, none, none, some noteText, now⟩] })

/-- GET /assessments/:jobId (server.ts lines 194-201). -/
def getAssessment (s : Store) (jobId : Nat) : ApiResult Assessment :=
  match s.assessments.find? (fun a => a.id == jobId) with
  | none => .err 404 "Not found"
  | some a => .ok a

/-- PUT /assessments/:jobId (server.ts lines 203-211): failure draw, then
upsert of `{ ...body, id: jobId, jobId, updatedAt: Date.now() }` by id. -/
def putAssessment (s : Store) (jobId : Nat) (b : Assessment) (fail : Bool) (now : Int) :
    ApiResult Unit × Store :=
  if fail then (.err 500 "Random failure (simulated)", s)
  else
    let stored : Assessment :=
      { id := jobId, jobId := jobId, title := b.title, sections := b.sections,
        updatedAt := now }
    (.ok (), { s with assessments := putBy Assessment.id s.assessments stored })

/-- Lowercase ASCII letter or digit, the character class kept by the slug
regex in db.ts. -/
def isAlnumLower (c : Char) : Bool :=
  (decide ('a' ≤ c) && decide (c ≤ 'z')) || (decide ('0' ≤ c) && decide (c ≤ '9'))

/-- The global replace of `[^a-z0-9]+` by a dash: each maximal run of
excluded characters becomes one dash.  The flag records whether the
previous character was part of such a run. -/
def dashifyAux : List Char → Bool → List Char
  | [], _ => []
  | c :: cs, inRun =>
    if isAlnumLower c then c :: dashifyAux cs false
    else if inRun then dashifyAux cs true
    else '-' :: dashifyAux cs true

/-- The `(^-|-$)` replace: at most one leading and one trailing dash can
remain after the run-collapsing step, and both are removed. -/
def stripEdgeDashes (l : List Char) : List Char :=
  let l1 := match l with
    | '-' :: t => t
    | other => other
  match l1.getLast? with
  | some c => if c = '-' then l1.dropLast else l1
  | none => l1

/-- The slug derivation in ensureSeed (db.ts line 111): lowercase, replace
non-alphanumeric runs with dashes, strip edge dashes. -/
def slugBase (title : String) : String :=
  String.mk (stripEdgeDashes (dashifyAux (strLower title).data false))

/-- The faker draws consumed by ensureSeed, supplied as explicit inputs
indexed the way the seeding loops consume them (job index, candidate
index, assessment/section/question index).  `candJob` holds the already
resolved optional job link (`Math.random() < 0.9 ? job.id : null` with a
job drawn from the 25 seeded jobs); `hops` is the drawn 1..4 hop count
and `hopStage` the drawn stage of each hop. -/
structure SeedEnv where
  jobTitle : Nat → String
  jobStatus : Nat → JobStatus
  jobTags : Nat → List String
  jobAge : Nat → Int
  candJob : Nat → Option Nat
  candName : Nat → String
  candEmail : Nat → String
  candStage : Nat → CandidateStage
  candAge : Nat → Int
  hops : Nat → Nat
  hopStage : Nat → Nat → CandidateStage
  qType : Nat → Nat → Nat → QuestionType
  qId : Nat → Nat → Nat → String
  qLabel : Nat → Nat → Nat → String
  qRequired : Nat → Nat → Nat → Bool
  qOptions : Nat → Nat → Nat → List String
  condId : Nat → Nat → String
  secId : Nat → Nat → String

/-- Seeded job i of 25 (db.ts lines 109-123): id = i+1, slug derived from
the drawn title, order = i. -/
def mkSeedJob (env : SeedEnv) (now : Int) (i : Nat) : Job :=
  let title := env.jobTitle i
  { id := i + 1, title := title,
    slug := slugBase title ++ "-" ++ toString (i + 1),
    status := env.jobStatus i, tags := env.jobTags i, order := (i : Int),
    createdAt := now - env.jobAge i, updatedAt := now }

/-- The 25 seeded jobs. -/
def seedJobs (env : SeedEnv) (now : Int) : List Job :=
  (List.range 25).map (mkSeedJob env now)

/-- Seeded candidate i of 1000 (db.ts lines 128-142): id = i+1. -/
def mkSeedCand (env : SeedEnv) (now : Int) (i : Nat) : Candidate :=
  { id := i + 1, jobId := env.candJob i, name := env.candName i,
    email := env.candEmail i, stage := env.candStage i,
    createdAt := now - env.candAge i, updatedAt := now }

/-- The 1000 seeded candidates. -/
def seedCandidates (env : SeedEnv) (now : Int) : List Candidate :=
  (List.range 1000).map (mkSeedCand env now)

/-- The 1..4 extra stage-change hops of candidate i (db.ts lines 152-156):
hop h moves from the running stage to the drawn one at
`createdAt + (h+1) * 86400000 / 2`. -/
def hopEvents (env : SeedEnv) (i cid : Nat) (created : Int) :
    Nat → Nat → CandidateStage → List TimelineEvent
  | 0, _, _ => []
  | rest + 1, h, current =>
    let next := env.hopStage i h
    ⟨cid, .stage_change, some current, some next, none,
      created + ((h : Int) + 1) * 86400000 / 2⟩ ::
      hopEvents env i cid created rest (h + 1) next

/-- The seeded timeline of candidate i (db.ts lines 148-157): the applied
origin event followed by the hops. -/
def candSeedTimeline (env : SeedEnv) (i : Nat) (c : Candidate) : List TimelineEvent :=
  ⟨c.id, .stage_change, none, some .applied, none, c.createdAt⟩ ::
    hopEvents env i c.id c.createdAt (env.hops i) 0 .applied

/-- All seeded timeline events, in candidate order. -/
def seedTimelines (env : SeedEnv) (now : Int) : List TimelineEvent :=
  ((List.range 1000).map (fun i => candSeedTimeline env i (mkSeedCand env now i))).flatten

/-- Seeded question q of section sidx of assessment a (db.ts lines
165-180): options only for choice types, maxLength 120/600 for short/long,
min 0 and max 10 for numeric. -/
def mkSeedQuestion (env : SeedEnv) (a sidx q : Nat) : AssessmentQuestion :=
  let t := env.qType a sidx q
  { id := env.qId a sidx q, type := t, label := env.qLabel a sidx q,
    required := some (env.qRequired a sidx q),
    options := if t = .single ∨ t = .multi then some (env.qOptions a sidx q) else none,
    maxLength := if t = .short then some 120 else if t = .long then some 600 else none,
    min := if t = .numeric then some 0 else none,
    max := if t = .numeric then some 10 else none,
    showIf := none }

/-- Seeded section sidx of assessment a (db.ts lines 163-188): five drawn
questions plus, since five exceeds two, one appended conditional question
whose showIf references the first question and its first option (or the
literal Yes). -/
def mkSeedSection (env : SeedEnv) (a sidx : Nat) : AssessmentSection :=
  let qs := (List.range 5).map (mkSeedQuestion env a sidx)
  let dep := mkSeedQuestion env a sidx 0
  let condQ : AssessmentQuestion :=
    { id := env.condId a sidx, type := .short, label := "Why?", required := some true,
      options := none, maxLength := none, min := none, max := none,
      showIf := some ⟨dep.id, .s ((dep.options.bind List.head?).getD ("Yes"))⟩ }
  { id := env.secId a sidx, title := "Section " ++ toString (sidx + 1),
    questions := if qs.length > 2 then qs ++ [condQ] else qs }

/-- Seeded assessment for job index idx (db.ts lines 161-190): attached to
one of the first three seeded jobs, 2 + idx % 2 sections, id = jobId. -/
def mkSeedAssessment (env : SeedEnv) (now : Int) (idx : Nat) : Assessment :=
  let job := mkSeedJob env now idx
  { id := job.id, jobId := job.id, title := job.title ++ " Assessment",
    sections := (List.range (2 + idx % 2)).map (mkSeedSection env idx),
    updatedAt := now }

/-- The 3 seeded assessments (`jobs.slice(0, 3)` = the first three seeded
jobs, i.e. indices 0, 1, 2). -/
def seedAssessments (env : SeedEnv) (now : Int) : List Assessment :=
  (List.range 3).map (mkSeedAssessment env now)

/-- ensureSeed from db.ts (lines 102-194): return immediately when the
seeded flag is set, otherwise bulk-put the generated jobs, candidates and
assessments, bulk-add the timeline events, and set the flag. -/
def ensureSeed (env : SeedEnv) (s : Store) (now : Int) : Store :=
  if s.seeded then s
  else
    { jobs := bulkPutBy Job.id s.jobs (seedJobs env now),
      candidates := bulkPutBy Candidate.id s.candidates (seedCandidates env now),
      timelines := s.timelines ++ seedTimelines env now,
      assessments := bulkPutBy Assessment.id s.assessments (seedAssessments env now),
      assessmentResponses := s.assessmentResponses,
      seeded := true }

/-- POST /assessments/:jobId/submit (server.ts lines 213-220). -/
def submitAssessmentResponse (s : Store) (jobId candidateId : Nat)
    (responses : List (String × SVal)) (now : Int) : ApiResult Unit × Store :=
  (.ok (), { s with assessmentResponses := s.assessmentResponses ++
      [⟨jobId, candidateId, responses, now⟩] })

/-- A SeedEnv of constant draws, used to instantiate universally
quantified seeding statements on a concrete input. -/
def constEnv : SeedEnv :=
  { jobTitle := fun _ => "T", jobStatus := fun _ => .active, jobTags := fun _ => [],
    jobAge := fun _ => 0, candJob := fun _ => none, candName := fun _ => "N",
    candEmail := fun _ => "e", candStage := fun _ => .applied, candAge := fun _ => 0,
    hops := fun _ => 1, hopStage := fun _ _ => .screen, qType := fun _ _ _ => .short,
    qId := fun _ _ _ => "q", qLabel := fun _ _ _ => "L", qRequired := fun _ _ _ => true,
    qOptions := fun _ _ _ => [], condId := fun _ _ => "c", secId := fun _ _ => "s" }

/-!
## Specification-side definitions

Written from the wording of the spec, for refinement comparison with the
handler predicates above.
-/

/-- Case-insensitive substring match, as the spec words it: the search
string is a substring of the field under case-insensitive comparison. -/
def specContainsCI (field search : String) : Bool :=
  strContains (strLower field) (strLower search)

/-- The spec matcher for Jobs: case-insensitive substring over the
designated fields title and slug. -/
def specJobMatches (search : String) (j : Job) : Bool :=
  specContainsCI j.title search || specContainsCI j.slug search

/-- The spec matcher for Candidates: case-insensitive substring over the
designated fields name and email. -/
def specCandMatches (search : String) (c : Candidate) : Bool :=
  specContainsCI c.name search || specContainsCI c.email search

/-- The timeline events that PATCH /candidates/:id appends before its
failure draw: one stage-change event exactly when the target exists and
the patch carries a different stage. -/
def stageEventsOf (s : Store) (id : Nat) (p : CandidatePatch) (now : Int) :
    List TimelineEvent :=
  match s.candidates.find? (fun c => c.id == id) with
  | none => []
  | some cand =>
    match p.stage with
    | some b =>
      if b = cand.stage then []
      else [⟨id, .stage_change, some cand.stage, some b, none, now⟩]
    | none => []

/-!
## Helper lemmas
-/

lemma putBy_of_fresh {α : Type} (key : α → Nat) (l : List α) (r : α)
    (h : ∀ x ∈ l, key x ≠ key r) : putBy key l r = l ++ [r] := by
  have hany : l.any (fun x => key x == key r) = false := by
    rw [List.any_eq_false]
    intro x hx
    simpa using h x hx
  unfold putBy
  rw [hany]
  simp

lemma bulkPutBy_fresh_length {α : Type} (key : α → Nat) :
    ∀ (rs l : List α), (rs.map key).Nodup →
      (∀ r ∈ rs, ∀ x ∈ l, key x ≠ key r) →
      (bulkPutBy key l rs).length = l.length + rs.length := by
  intro rs
  induction rs with
  | nil =>
    intro l _ _
    simp [bulkPutBy]
  | cons r rest ih =>
    intro l hnd hfresh
    have hput : putBy key l r = l ++ [r] :=
      putBy_of_fresh key l r (fun x hx => hfresh r (by simp) x hx)
    have hstep : bulkPutBy key l (r :: rest) = bulkPutBy key (putBy key l r) rest := rfl
    rw [hstep, hput]
    have hnd2 : (rest.map key).Nodup := (List.nodup_cons.mp hnd).2
    have hhead : key r ∉ rest.map key := by
      simpa using (List.nodup_cons.mp hnd).1
    have hfresh2 : ∀ q ∈ rest, ∀ x ∈ l ++ [r], key x ≠ key q := by
      intro q hq x hx
      rcases List.mem_append.mp hx with hxl | hxr
      · exact hfresh q (by simp [hq]) x hxl
      · have hxeq : x = r := by simpa using hxr
        subst hxeq
        intro hcontra
        exact hhead (hcontra ▸ List.mem_map_of_mem key hq)
    rw [ih (l ++ [r]) hnd2 hfresh2]
    simp
    omega

lemma seedJobs_keys (env : SeedEnv) (now : Int) :
    (seedJobs env now).map Job.id = (List.range 25).map (fun i => i + 1) := by
  simp only [seedJobs, List.map_map]
  rfl

lemma seedCandidates_keys (env : SeedEnv) (now : Int) :
    (seedCandidates env now).map Candidate.id = (List.range 1000).map (fun i => i + 1) := by
  simp only [seedCandidates, List.map_map]
  rfl

lemma seedAssessments_keys (env : SeedEnv) (now : Int) :
    (seedAssessments env now).map Assessment.id = (List.range 3).map (fun i => i + 1) := by
  simp only [seedAssessments, List.map_map]
  rfl

lemma range_succ_keys_nodup (n : Nat) : ((List.range n).map (fun i => i + 1)).Nodup :=
  (List.nodup_range n).map (fun a b h => by omega)

/-- Pairwise-distinct slugs across the Jobs table (the §8 invariant). -/
def slugsNodup (l : List Job) : Prop := (l.map Job.slug).Nodup

instance decSlugsNodup (l : List Job) : Decidable (slugsNodup l) :=
  inferInstanceAs (Decidable ((l.map Job.slug).Nodup))

lemma nodup_slug_update (idv : Nat) (sl : String) :
    ∀ (l : List Job), (l.map Job.id).Nodup → (l.map Job.slug).Nodup →
      (∀ r ∈ l, r.slug ≠ sl) →
      (l.map (fun x => if x.id == idv then sl else x.slug)).Nodup := by
  intro l
  induction l with
  | nil =>
    intro _ _ _
    simp
  | cons y t iht =>
    intro hids hslugs hfree
    simp only [List.map_cons, List.nodup_cons] at hids hslugs
    by_cases hy : (y.id == idv) = true
    · have hideq : y.id = idv := by simpa using hy
      have hxne : ∀ x ∈ t, ¬ (x.id == idv) = true := by
        intro x hx hcontra
        apply hids.1
        have hxid : x.id = idv := by simpa using hcontra
        rw [hideq, ← hxid]
        exact List.mem_map_of_mem Job.id hx
      have htfix : t.map (fun x => if x.id == idv then sl else x.slug) = t.map Job.slug := by
        apply List.map_congr_left
        intro x hx
        rw [if_neg (hxne x hx)]
      simp only [List.map_cons, List.nodup_cons]
      rw [if_pos hy, htfix]
      constructor
      · intro hmem
        rcases List.mem_map.mp hmem with ⟨x, hx, hval⟩
        exact hfree x (by simp [hx]) hval
      · exact hslugs.2
    · have htail := iht hids.2 hslugs.2 (fun r hr => hfree r (by simp [hr]))
      simp only [List.map_cons, List.nodup_cons]
      rw [if_neg hy]
      refine ⟨?_, htail⟩
      intro hmem
      rcases List.mem_map.mp hmem with ⟨x, hx, hval⟩
      by_cases hxid : (x.id == idv) = true
      · rw [if_pos hxid] at hval
        exact hfree y (by simp) hval.symm
      · rw [if_neg hxid] at hval
        exact hslugs.1 (hval ▸ List.mem_map_of_mem Job.slug hx)

lemma nat_beq_comm (a b : Nat) : (a == b) = (b == a) := by
  cases hab : a == b <;> cases hba : b == a <;> simp_all

lemma filter_extract (x : Job) :
    ∀ (l : List Job), (l.map Job.id).Nodup → x ∈ l →
      ∀ (q : Job → Bool), q x = true →
      (l.filter q).Perm (x :: l.filter (fun j => !(x.id == j.id) && q j)) := by
  intro l
  induction l with
  | nil =>
    intro _ hx
    simp at hx
  | cons y t iht =>
    intro hnd hx q hqx
    simp only [List.map_cons, List.nodup_cons] at hnd
    rcases List.mem_cons.mp hx with hxy | hxt
    · subst hxy
      rw [List.filter_cons_of_pos hqx,
          List.filter_cons_of_neg (by simp)]
      apply List.Perm.cons
      have hagree : ∀ j ∈ t, (!(x.id == j.id) && q j) = q j := by
        intro j hj
        have hne : x.id ≠ j.id := by
          intro hcontra
          exact hnd.1 (hcontra ▸ List.mem_map_of_mem Job.id hj)
        simp [hne]
      rw [List.filter_congr hagree]
    · have hyne : x.id ≠ y.id := by
        intro hcontra
        apply hnd.1
        rw [← hcontra]
        exact List.mem_map_of_mem Job.id hxt
      by_cases hqy : q y = true
      · rw [List.filter_cons_of_pos hqy,
            List.filter_cons_of_pos (by simp [hyne, hqy])]
        have ihx := iht hnd.2 hxt q hqx
        exact (ihx.cons y).trans (List.Perm.swap x y _)
      · have hqy2 : q y = false := by simpa using hqy
        rw [List.filter_cons_of_neg (by simp [hqy2]),
            List.filter_cons_of_neg (by simp [hqy2])]
        exact iht hnd.2 hxt q hqx

lemma updateOrder_id (p : Nat × Job) (j : Job) :
    (if j.id == p.2.id then { j with order := (p.1 : Int) } else j).id = j.id := by
  split <;> rfl

lemma updateOrderStep_keys (tbl : List Job) (p : Nat × Job) :
    (updateOrderStep tbl p).map Job.id = tbl.map Job.id := by
  unfold updateOrderStep
  rw [List.map_map]
  apply List.map_congr_left
  intro j _
  simp only [Function.comp]
  split <;> rfl

lemma updFold_perm :
    ∀ (pairs : List (Nat × Job)) (tbl : List Job),
      (tbl.map Job.id).Nodup →
      (pairs.map (fun p => p.2.id)).Nodup →
      (∀ p ∈ pairs, p.2 ∈ tbl) →
      (pairs.foldl updateOrderStep tbl).Perm
        (pairs.map (fun p => { p.2 with order := (p.1 : Int) }) ++
          tbl.filter (fun j => !(pairs.any (fun p => p.2.id == j.id)))) := by
  intro pairs
  induction pairs with
  | nil =>
    intro tbl _ _ _
    simp
  | cons p ps ih =>
    intro tbl hnd hpnd hmem
    have hstep : (p :: ps).foldl updateOrderStep tbl
        = ps.foldl updateOrderStep (updateOrderStep tbl p) := rfl
    rw [hstep]
    have hxmem : p.2 ∈ tbl := hmem p (by simp)
    simp only [List.map_cons, List.nodup_cons] at hpnd
    have hnd2 : ((updateOrderStep tbl p).map Job.id).Nodup := by
      rw [updateOrderStep_keys]
      exact hnd
    have hmem2 : ∀ q ∈ ps, q.2 ∈ updateOrderStep tbl p := by
      intro q hq
      have hqid : ¬ (q.2.id == p.2.id) = true := by
        intro hcontra
        apply hpnd.1
        have heq : q.2.id = p.2.id := by simpa using hcontra
        rw [← heq]
        exact List.mem_map_of_mem (fun r => r.2.id) hq
      have hfix : (fun j => if j.id == p.2.id then { j with order := (p.1 : Int) } else j) q.2
          = q.2 := by
        simp only [if_neg hqid]
      have hinmap : (fun j => if j.id == p.2.id then { j with order := (p.1 : Int) } else j) q.2
          ∈ updateOrderStep tbl p :=
        List.mem_map_of_mem _ (hmem q (List.mem_cons_of_mem p hq))
      rw [hfix] at hinmap
      exact hinmap
    have ihp := ih (updateOrderStep tbl p) hnd2 hpnd.2 hmem2
    have hA : (updateOrderStep tbl p).filter (fun j => !(ps.any (fun r => r.2.id == j.id)))
        = (tbl.filter (fun j => !(ps.any (fun r => r.2.id == j.id)))).map
            (fun j => if j.id == p.2.id then { j with order := (p.1 : Int) } else j) := by
      unfold updateOrderStep
      rw [List.filter_map]
      congr 1
      apply List.filter_congr
      intro j _
      simp only [Function.comp, updateOrder_id]
    have hqpsx : (fun j => !(ps.any (fun r => r.2.id == j.id))) p.2 = true := by
      have hany : ps.any (fun r => r.2.id == p.2.id) = false := by
        rw [List.any_eq_false]
        intro r hr hcontra
        apply hpnd.1
        have heq : r.2.id = p.2.id := by simpa using hcontra
        rw [← heq]
        exact List.mem_map_of_mem (fun r => r.2.id) hr
      simp [hany]
    have hext := filter_extract p.2 tbl hnd hxmem
        (fun j => !(ps.any (fun r => r.2.id == j.id))) hqpsx
    have hextf := hext.map
        (fun j => if j.id == p.2.id then { j with order := (p.1 : Int) } else j)
    have hfp : (fun j => if j.id == p.2.id then { j with order := (p.1 : Int) } else j) p.2
        = { p.2 with order := (p.1 : Int) } := by
      simp
    have hrest : (tbl.filter (fun j => !(p.2.id == j.id) &&
          !(ps.any (fun r => r.2.id == j.id)))).map
          (fun j => if j.id == p.2.id then { j with order := (p.1 : Int) } else j)
        = tbl.filter (fun j => !(p.2.id == j.id) && !(ps.any (fun r => r.2.id == j.id))) := by
      have hid : ∀ j ∈ tbl.filter (fun j => !(p.2.id == j.id) &&
            !(ps.any (fun r => r.2.id == j.id))),
          (fun j => if j.id == p.2.id then { j with order := (p.1 : Int) } else j) j = j := by
        intro j hj
        have hpred := (List.mem_filter.mp hj).2
        have hne : ¬ (j.id == p.2.id) = true := by
          intro hc
          have heq : j.id = p.2.id := by simpa using hc
          rw [heq] at hpred
          simp at hpred
        simp [hne]
      have := List.map_congr_left hid
      simpa using this
    have hfull : tbl.filter (fun j => !(p.2.id == j.id) &&
          !(ps.any (fun r => r.2.id == j.id)))
        = tbl.filter (fun j => !((p :: ps).any (fun r => r.2.id == j.id))) := by
      apply List.filter_congr
      intro j _
      simp [List.any_cons, Bool.not_or]
    have hhead : (p.2 :: tbl.filter (fun j => !(p.2.id == j.id) &&
          !(ps.any (fun r => r.2.id == j.id)))).map
          (fun j => if j.id == p.2.id then { j with order := (p.1 : Int) } else j)
        = { p.2 with order := (p.1 : Int) } ::
          tbl.filter (fun j => !((p :: ps).any (fun r => r.2.id == j.id))) := by
      rw [List.map_cons, hrest, hfull]
      simp
    rw [hA] at ihp
    have h2 := hextf
    rw [hhead] at h2
    have h3 := ihp.trans (List.Perm.append_left _ h2)
    exact h3.trans List.perm_middle

lemma putBy_map_branch (s : Store) (job updated : Job) (hjmem : job ∈ s.jobs)
    (hupid : updated.id = job.id) :
    putBy Job.id s.jobs updated
      = s.jobs.map (fun x => if x.id == updated.id then updated else x) := by
  have hany : s.jobs.any (fun x => x.id == updated.id) = true :=
    List.any_eq_true.mpr ⟨job, hjmem, by simp [hupid]⟩
  unfold putBy
  rw [hany]
  simp

lemma putBy_slugs (s : Store) (job updated : Job) (hjmem : job ∈ s.jobs)
    (hupid : updated.id = job.id) :
    (putBy Job.id s.jobs updated).map Job.slug
      = s.jobs.map (fun x => if x.id == updated.id then updated.slug else x.slug) := by
  rw [putBy_map_branch s job updated hjmem hupid, List.map_map]
  apply List.map_congr_left
  intro x _
  exact apply_ite Job.slug _ _ _

lemma patch_put_slugs_same (s : Store) (job updated : Job)
    (hids : (s.jobs.map Job.id).Nodup) (hnd : slugsNodup s.jobs) (hjmem : job ∈ s.jobs)
    (hupid : updated.id = job.id) (hupslug : updated.slug = job.slug) :
    slugsNodup (putBy Job.id s.jobs updated) := by
  unfold slugsNodup
  rw [putBy_slugs s job updated hjmem hupid]
  have hmapeq : s.jobs.map (fun x => if x.id == updated.id then updated.slug else x.slug)
      = s.jobs.map Job.slug := by
    apply List.map_congr_left
    intro x hx
    by_cases hc : (x.id == updated.id) = true
    · have hxj : x = job :=
        List.inj_on_of_nodup_map hids hx hjmem (by rw [hupid] at hc; simpa using hc)
      rw [if_pos hc, hupslug, hxj]
    · rw [if_neg hc]
  rw [hmapeq]
  exact hnd

lemma patch_put_slugs_fresh (s : Store) (job updated : Job)
    (hids : (s.jobs.map Job.id).Nodup) (hnd : slugsNodup s.jobs) (hjmem : job ∈ s.jobs)
    (hupid : updated.id = job.id) (hfree : ∀ r ∈ s.jobs, r.slug ≠ updated.slug) :
    slugsNodup (putBy Job.id s.jobs updated) := by
  unfold slugsNodup
  rw [putBy_slugs s job updated hjmem hupid]
  exact nodup_slug_update updated.id updated.slug s.jobs hids hnd hfree

/-!
## Claim theorems
-/

/-- C9: ensureSeed is idempotent: a second call on any post-call state is
the identity (the seeded flag is set by every call and a flag-set state is
returned immediately), and two sequential calls on an empty store leave
exactly 25 Jobs, 1000 Candidates and 3 Assessments. -/
theorem c9_seed_idempotent :
    (∀ env env2 s now now2,
      ensureSeed env2 (ensureSeed env s now) now2 = ensureSeed env s now) ∧
    (∀ env s now, s.seeded = true → ensureSeed env s now = s) ∧
    (∀ env s now, (ensureSeed env s now).seeded = true) ∧
    (∀ env env2 now now2,
      (ensureSeed env2 (ensureSeed env emptyStore now) now2).jobs.length = 25 ∧
      (ensureSeed env2 (ensureSeed env emptyStore now) now2).candidates.length = 1000 ∧
      (ensureSeed env2 (ensureSeed env emptyStore now) now2).assessments.length = 3) := by
  have hflag : ∀ env s now, (ensureSeed env s now).seeded = true := by
    intro env s now
    unfold ensureSeed
    by_cases h : s.seeded <;> simp [h]
  have hid : ∀ env s now, s.seeded = true → ensureSeed env s now = s := by
    intro env s now h
    unfold ensureSeed
    simp [h]
  have htwice : ∀ env env2 s now now2,
      ensureSeed env2 (ensureSeed env s now) now2 = ensureSeed env s now := by
    intro env env2 s now now2
    exact hid env2 (ensureSeed env s now) now2 (hflag env s now)
  refine ⟨htwice, hid, hflag, ?_⟩
  intro env env2 now now2
  rw [htwice]
  have hone : ensureSeed env emptyStore now =
      { jobs := bulkPutBy Job.id [] (seedJobs env now),
        candidates := bulkPutBy Candidate.id [] (seedCandidates env now),
        timelines := [] ++ seedTimelines env now,
        assessments := bulkPutBy Assessment.id [] (seedAssessments env now),
        assessmentResponses := [],
        seeded := true } := by
    unfold ensureSeed
    simp [emptyStore]
  rw [hone]
  refine ⟨?_, ?_, ?_⟩
  · have h := bulkPutBy_fresh_length Job.id (seedJobs env now) []
      (by rw [seedJobs_keys]; exact range_succ_keys_nodup 25)
      (by intro r _ x hx; simp at hx)
    simpa [seedJobs] using h
  · have h := bulkPutBy_fresh_length Candidate.id (seedCandidates env now) []
      (by rw [seedCandidates_keys]; exact range_succ_keys_nodup 1000)
      (by intro r _ x hx; simp at hx)
    simpa [seedCandidates] using h
  · have h := bulkPutBy_fresh_length Assessment.id (seedAssessments env now) []
      (by rw [seedAssessments_keys]; exact range_succ_keys_nodup 3)
      (by intro r _ x hx; simp at hx)
    simpa [seedAssessments] using h

/-- C9 witness: ensureSeed applied to a store whose seeded flag is already
set returns it unchanged. -/
theorem c9_witness :
    ensureSeed constEnv { emptyStore with seeded := true } 0
      = { emptyStore with seeded := true } :=
  c9_seed_idempotent.2.1 constEnv { emptyStore with seeded := true } 0 rfl

/-- C10: the outcome of Reorder Job is independent of the fromOrder input;
the handler destructures fromOrder from the body but never consults it, so
two requests differing only in fromOrder produce identical results and
stores. -/
theorem c10_reorder_ignores_fromOrder (s : Store) (id : Nat) (f1 f2 t : Int) (fail : Bool) :
    reorderJob s id f1 t fail = reorderJob s id f2 t fail := rfl

/-- A one-candidate store used to exercise Patch Candidate concretely. -/
def oneCandStore : Store :=
  { jobs := [], candidates := [⟨1, none, "Ada", "a@x", .applied, 0, 0⟩],
    timelines := [], assessments := [], assessmentResponses := [], seeded := true }

/-- C1 counterexample: a Patch Candidate request that changes the stage
and then draws an injected failure leaves the store different from its
pre-request state (the stage-change timeline event, appended before the
failure draw, survives), refuting the claim that every failure leaves the
durable store exactly in its pre-request state. -/
theorem c1_counterexample :
    ((patchCandidate oneCandStore 1 ⟨none, none, some .screen, none⟩ true 5).1
      = .err 500 "Random failure (simulated)") ∧
    (patchCandidate oneCandStore 1 ⟨none, none, some .screen, none⟩ true 5).2
      ≠ oneCandStore := by
  constructor
  · decide
  · decide

/-- C1 amended: every mutating operation except Patch Candidate leaves the
store exactly in its pre-request state when the injected failure draw
fires (validation failures also leave it unchanged); a failed Patch
Candidate leaves every table unchanged except the timelines table, which
keeps the stage-change event appended before the failure draw. -/
theorem c1_failure_rollback_amended :
    (∀ s b now, (createJob s b true now).2 = s) ∧
    (∀ s id p now, (patchJob s id p true now).2 = s) ∧
    (∀ s id f t, (reorderJob s id f t true).2 = s) ∧
    (∀ s b now, (createCandidate s b true now).2 = s) ∧
    (∀ s jid b now, (putAssessment s jid b true now).2 = s) ∧
    (∀ s id p now,
      ((patchCandidate s id p true now).2.jobs = s.jobs ∧
       (patchCandidate s id p true now).2.candidates = s.candidates ∧
       (patchCandidate s id p true now).2.assessments = s.assessments ∧
       (patchCandidate s id p true now).2.assessmentResponses = s.assessmentResponses ∧
       (patchCandidate s id p true now).2.timelines =
         s.timelines ++ stageEventsOf s id p now)) := by
  refine ⟨?_, ?_, ?_, ?_, ?_, ?_⟩
  · intro s b now
    unfold createJob
    by_cases h : (s.jobs.find? (fun j => j.slug == b.slug)).isSome <;> simp [h]
  · intro s id p now
    unfold patchJob
    cases hfind : s.jobs.find? (fun j => j.id == id) with
    | none => rfl
    | some job =>
      cases hslug : p.slug with
      | none => simp
      | some sl =>
        by_cases h1 : sl = ""
        · simp [h1]
        · by_cases h2 : sl = job.slug
          · simp [h1, h2]
          · by_cases h3 : (s.jobs.find? (fun j => j.slug == sl)).isSome <;>
              simp [h1, h2, h3]
  · intro s id f t
    unfold reorderJob
    simp
  · intro s b now
    unfold createCandidate
    simp
  · intro s jid b now
    unfold putAssessment
    simp
  · intro s id p now
    unfold patchCandidate stageEventsOf
    cases hfind : s.candidates.find? (fun c => c.id == id) with
    | none => simp
    | some cand =>
      cases hstage : p.stage with
      | none => simp
      | some b =>
        by_cases hb : b = cand.stage <;> simp [hb]

/-- C2 counterexample: a Reorder Job request naming an id absent from the
Jobs table, together with a firing failure draw, returns the injected 500
rather than the 404 the claim promises regardless of the draw. -/
theorem c2_counterexample :
    (({ emptyStore with seeded := true } : Store).jobs.find? (fun j => j.id == 3)
      = none) ∧
    (reorderJob { emptyStore with seeded := true } 3 0 0 true).1
      = .err 500 "Reorder failed (simulated)" := by
  constructor
  · rfl
  · rfl

/-- C2 amended: duplicate-slug, unknown-id and empty-note validation on
Create Job, Patch Job, Patch Candidate and Add Note is deterministic and
decided before (or without) any failure injection; the Reorder Job
handler, however, draws its failure first, so an unknown id yields 404
only when the draw does not fire, and the injected 500 otherwise. -/
theorem c2_validation_before_injection_amended :
    (∀ s b now fail, (s.jobs.find? (fun j => j.slug == b.slug)).isSome = true →
       createJob s b fail now = (.err 400 "Slug must be unique", s)) ∧
    (∀ s id p now fail, s.jobs.find? (fun j => j.id == id) = none →
       patchJob s id p fail now = (.err 404 "Not found", s)) ∧
    (∀ s id p now fail, s.candidates.find? (fun c => c.id == id) = none →
       patchCandidate s id p fail now = (.err 404 "Not found", s)) ∧
    (∀ s id noteText now, strTrim noteText = "" →
       addCandidateNote s id noteText now = (.err 400 "Note is required", s)) ∧
    (∀ s id f t, reorderJob s id f t true = (.err 500 "Reorder failed (simulated)", s)) ∧
    (∀ s id f t, (sortJobsIndex s.jobs).find? (fun j => j.id == id) = none →
       reorderJob s id f t false = (.err 404 "Not found", s)) := by
  refine ⟨?_, ?_, ?_, ?_, ?_, ?_⟩
  · intro s b now fail h
    unfold createJob
    simp [h]
  · intro s id p now fail h
    unfold patchJob
    simp [h]
  · intro s id p now fail h
    unfold patchCandidate
    simp [h]
  · intro s id noteText now h
    unfold addCandidateNote
    simp [h]
  · intro s id f t
    unfold reorderJob
    simp
  · intro s id f t h
    unfold reorderJob
    simp [h]

/-- C2 witness: the amended statement instantiated on concrete stores, one
instance per validated route. -/
theorem c2_witness :
    (createJob { emptyStore with jobs := [⟨1, "t", "a", .active, [], 0, 0, 0⟩] }
        ⟨"u", "a", none⟩ false 3 =
      (.err 400 "Slug must be unique",
        { emptyStore with jobs := [⟨1, "t", "a", .active, [], 0, 0, 0⟩] })) ∧
    (patchJob emptyStore 7 ⟨none, none, none, none, none⟩ true 3 =
      (.err 404 "Not found", emptyStore)) ∧
    (patchCandidate emptyStore 7 ⟨none, none, none, none⟩ true 3 =
      (.err 404 "Not found", emptyStore)) ∧
    (addCandidateNote emptyStore 1 ("  ") 3 = (.err 400 "Note is required", emptyStore)) ∧
    (reorderJob emptyStore 3 0 0 false = (.err 404 "Not found", emptyStore)) :=
  ⟨c2_validation_before_injection_amended.1 _ _ 3 false (by decide),
   c2_validation_before_injection_amended.2.1 _ 7 _ 3 true (by decide),
   c2_validation_before_injection_amended.2.2.1 _ 7 _ 3 true (by decide),
   c2_validation_before_injection_amended.2.2.2.1 _ 1 _ 3 (by decide),
   c2_validation_before_injection_amended.2.2.2.2.2 _ 3 0 0 (by decide)⟩

/-- C6 counterexample: Get Candidate Timeline on a store whose Candidates
table does not contain id 1 answers with an ok empty event list, not with
the 404 client error the claim requires for nonexistent ids. -/
theorem c6_counterexample :
    getCandidateTimeline emptyStore 1 = .ok [] ∧
    getCandidateTimeline emptyStore 1 ≠ .err 404 "Not found" := by
  constructor
  · rfl
  · decide

/-- C6 amended: the timeline route performs no existence check and never
returns an error; addressed to an id that owns no timeline events (in
particular any candidateId absent from a store whose events all reference
existing candidates) it returns the ok empty list rather than a 404. -/
theorem c6_timeline_amended :
    (∀ s id, (getCandidateTimeline s id).isOk = true) ∧
    (∀ s id, (∀ e ∈ s.timelines, e.candidateId ≠ id) →
       getCandidateTimeline s id = .ok []) := by
  constructor
  · intro s id
    rfl
  · intro s id h
    unfold getCandidateTimeline
    have hnil : s.timelines.filter (fun e => e.candidateId == id) = [] := by
      rw [List.filter_eq_nil_iff]
      intro e he
      simpa using h e he
    rw [hnil]
    rfl

/-- C6 witness: the amended statement instantiated on a store holding one
event for candidate 1, queried for candidate 2. -/
theorem c6_witness :
    getCandidateTimeline
      { emptyStore with timelines := [⟨1, .note, none, none, some ("x"), 0⟩] } 2
      = .ok [] :=
  c6_timeline_amended.2
    { emptyStore with timelines := [⟨1, .note, none, none, some ("x"), 0⟩] } 2
    (by decide)

/-- A store holding one job whose stored slug contains uppercase
letters. -/
def upperSlugStore : Store :=
  { jobs := [⟨1, "Dev", "ABC", .active, [], 0, 0, 0⟩], candidates := [],
    timelines := [], assessments := [], assessmentResponses := [], seeded := true }

/-- C7 counterexample: the stored Job with title Dev and slug ABC is not
matched by the search ABC rendered as its lowercase form (the handler
lowercases the search but compares the slug as stored), although the
search string is a substring of the slug under case-insensitive
comparison; the GET /jobs pipeline accordingly returns it in no page. -/
theorem c7_counterexample :
    specJobMatches ("B") ⟨1, "Dev", "ABC", .active, [], 0, 0, 0⟩ = true ∧
    jobMatchesSearch (strLower ("B")) ⟨1, "Dev", "ABC", .active, [], 0, 0, 0⟩
      = false ∧
    (listJobs upperSlugStore "B" "" [] 1 10 "order").data = [] := by
  refine ⟨?_, ?_, ?_⟩
  · decide
  · decide
  · decide

/-- C7 amended: candidate search is case-insensitive substring match over
name and email exactly as the spec states; job search lowercases the
search string and the title but compares the slug as stored, so it agrees
with the spec matcher exactly on jobs whose stored slug is already
lowercase. -/
theorem c7_search_amended :
    (∀ search c, candMatchesSearch (strLower search) c = specCandMatches search c) ∧
    (∀ search j, strLower j.slug = j.slug →
       jobMatchesSearch (strLower search) j = specJobMatches search j) := by
  constructor
  · intro search c
    rfl
  · intro search j h
    unfold jobMatchesSearch specJobMatches specContainsCI
    rw [h]

/-- C7 witness: the amended statement instantiated on a lowercase-slug job
and on a candidate. -/
theorem c7_witness :
    (candMatchesSearch (strLower ("Ada")) ⟨1, none, "ada l", "a@x", .applied, 0, 0⟩
      = specCandMatches ("Ada") ⟨1, none, "ada l", "a@x", .applied, 0, 0⟩) ∧
    (jobMatchesSearch (strLower ("DEV")) ⟨1, "Senior Dev", "dev-1", .active, [], 0, 0, 0⟩
      = specJobMatches ("DEV") ⟨1, "Senior Dev", "dev-1", .active, [], 0, 0, 0⟩) :=
  ⟨c7_search_amended.1 ("Ada") ⟨1, none, "ada l", "a@x", .applied, 0, 0⟩,
   c7_search_amended.2 ("DEV") ⟨1, "Senior Dev", "dev-1", .active, [], 0, 0, 0⟩ (by decide)⟩

lemma reorderJob_false_eq (s : Store) (id : Nat) (f t : Int) :
    reorderJob s id f t false =
      (match (sortJobsIndex s.jobs).find? (fun j => j.id == id) with
        | none => (.err 404 "Not found", s)
        | some moved =>
          (.ok (), { s with
            jobs := ((reorderNewList s id t moved).enum).foldl updateOrderStep s.jobs })) := rfl

/-- A two-job store with dense orders, for concrete reorder runs. -/
def twoJobsStore : Store :=
  { jobs := [⟨1, "t1", "a", .active, [], 0, 0, 0⟩, ⟨2, "t2", "b", .active, [], 1, 0, 0⟩],
    candidates := [], timelines := [], assessments := [], assessmentResponses := [],
    seeded := true }

/-- C3 counterexample: a successful Reorder Job with toOrder = 5 on a
two-job table reports ok, but the moved job ends at the clamped position
1, not at position 5: the splice clamps an out-of-range destination to the
end of the collection. -/
theorem c3_counterexample :
    (reorderJob twoJobsStore 1 0 5 false).1 = .ok () ∧
    ((reorderJob twoJobsStore 1 0 5 false).2.jobs.find? (fun j => j.id == 1)).map Job.order
      = some 1 ∧
    ((1 : Int) = 5 → False) := by
  refine ⟨?_, ?_, ?_⟩
  · decide
  · decide
  · decide

/-- C3 amended: for every store with pairwise-distinct job ids, after
every successful Reorder Job the multiset of order values across the Jobs
table is exactly the dense zero-based range of the table size, and the
moved job sits at position toOrder whenever 0 ≤ toOrder < n (an
out-of-range toOrder is clamped by the splice). -/
theorem c3_reorder_dense_amended (s : Store) (id : Nat) (f t : Int)
    (hids : (s.jobs.map Job.id).Nodup)
    (hok : ((reorderJob s id f t false).1).isOk = true) :
    ((reorderJob s id f t false).2.jobs.map Job.order).Perm
      ((List.range s.jobs.length).map Int.ofNat) ∧
    (0 ≤ t → t < (s.jobs.length : Int) →
      ∀ j, j ∈ (reorderJob s id f t false).2.jobs → j.id = id → j.order = t) := by
  rw [reorderJob_false_eq] at hok ⊢
  cases hfind : (sortJobsIndex s.jobs).find? (fun j => j.id == id) with
  | none =>
    rw [hfind] at hok
    simp [ApiResult.isOk] at hok
  | some moved =>
    clear hok
    have hpermAll : (sortJobsIndex s.jobs).Perm s.jobs := List.perm_insertionSort _ _
    have hmid : moved.id = id := by simpa using List.find?_some hfind
    have hmem_all : moved ∈ sortJobsIndex s.jobs := List.mem_of_find?_eq_some hfind
    have hkeysAll : ((sortJobsIndex s.jobs).map Job.id).Nodup :=
      ((hpermAll.map Job.id).nodup_iff).mpr hids
    have hext := filter_extract moved (sortJobsIndex s.jobs) hkeysAll hmem_all
      (fun _ => true) rfl
    rw [List.filter_true] at hext
    have hpredeq : ∀ j ∈ sortJobsIndex s.jobs,
        (!(moved.id == j.id) && (fun _ : Job => true) j) = !(j.id == id) := by
      intro j _
      rw [Bool.and_true, hmid, nat_beq_comm]
    rw [List.filter_congr hpredeq] at hext
    have hpermO : (sortJobsByOrder ((sortJobsIndex s.jobs).filter (fun j => !(j.id == id)))).Perm
        ((sortJobsIndex s.jobs).filter (fun j => !(j.id == id))) :=
      List.perm_insertionSort _ _
    have hNLdef : reorderNewList s id t moved =
        (sortJobsByOrder ((sortJobsIndex s.jobs).filter (fun j => !(j.id == id)))).take
            (spliceIndex (sortJobsByOrder ((sortJobsIndex s.jobs).filter
              (fun j => !(j.id == id)))).length t) ++
          moved :: (sortJobsByOrder ((sortJobsIndex s.jobs).filter (fun j => !(j.id == id)))).drop
            (spliceIndex (sortJobsByOrder ((sortJobsIndex s.jobs).filter
              (fun j => !(j.id == id)))).length t) := rfl
    have hNLperm : (reorderNewList s id t moved).Perm s.jobs := by
      rw [hNLdef]
      have h1 := @List.perm_middle Job moved
        ((sortJobsByOrder ((sortJobsIndex s.jobs).filter (fun j => !(j.id == id)))).take
          (spliceIndex (sortJobsByOrder ((sortJobsIndex s.jobs).filter
            (fun j => !(j.id == id)))).length t))
        ((sortJobsByOrder ((sortJobsIndex s.jobs).filter (fun j => !(j.id == id)))).drop
          (spliceIndex (sortJobsByOrder ((sortJobsIndex s.jobs).filter
            (fun j => !(j.id == id)))).length t))
      rw [List.take_append_drop] at h1
      exact h1.trans ((hpermO.cons moved).trans (hext.symm.trans hpermAll))
    have hkeysNL : ((reorderNewList s id t moved).map Job.id).Nodup :=
      ((hNLperm.map Job.id).nodup_iff).mpr hids
    have hsnd : ((reorderNewList s id t moved).enum).map Prod.snd
        = reorderNewList s id t moved := List.enumFrom_map_snd 0 _
    have hpairs_keys : ((reorderNewList s id t moved).enum).map (fun p => p.2.id)
        = (reorderNewList s id t moved).map Job.id := by
      conv_rhs => rw [← hsnd]
      rw [List.map_map]
      rfl
    have hpairs_nd : (((reorderNewList s id t moved).enum).map (fun p => p.2.id)).Nodup := by
      rw [hpairs_keys]
      exact hkeysNL
    have hmemp : ∀ p ∈ (reorderNewList s id t moved).enum, p.2 ∈ s.jobs := by
      intro p hp
      exact (hNLperm.mem_iff).mp (List.snd_mem_of_mem_enumFrom hp)
    have hfold := updFold_perm ((reorderNewList s id t moved).enum) s.jobs hids
      hpairs_nd hmemp
    have hleft : s.jobs.filter
        (fun j => !(((reorderNewList s id t moved).enum).any (fun p => p.2.id == j.id)))
        = [] := by
      rw [List.filter_eq_nil_iff]
      intro j hj
      have hjin : j ∈ ((reorderNewList s id t moved).enum).map Prod.snd := by
        rw [hsnd]
        exact (hNLperm.mem_iff).mpr hj
      rcases List.mem_map.mp hjin with ⟨p, hp, hpj⟩
      have hany : ((reorderNewList s id t moved).enum).any (fun p => p.2.id == j.id)
          = true := List.any_eq_true.mpr ⟨p, hp, by rw [hpj]; simp⟩
      simp [hany]
    rw [hleft, List.append_nil] at hfold
    constructor
    · have horders := hfold.map Job.order
      have heq1 : (((reorderNewList s id t moved).enum).map
            (fun p => { p.2 with order := (p.1 : Int) })).map Job.order
          = ((reorderNewList s id t moved).enum).map (fun p => (p.1 : Int)) := by
        rw [List.map_map]
        exact List.map_congr_left (fun p _ => rfl)
      have heq2 : ((reorderNewList s id t moved).enum).map (fun p => (p.1 : Int))
          = (((reorderNewList s id t moved).enum).map Prod.fst).map Int.ofNat := by
        rw [List.map_map]
        exact List.map_congr_left (fun p _ => rfl)
      have hfst : ((reorderNewList s id t moved).enum).map Prod.fst
          = List.range (reorderNewList s id t moved).length := by
        rw [List.range_eq_range']
        exact List.enumFrom_map_fst 0 _
      have hlen : (reorderNewList s id t moved).length = s.jobs.length :=
        hNLperm.length_eq
      rw [heq1, heq2, hfst, hlen] at horders
      exact horders
    · intro ht0 htn j hjmem hjid
      have hjin : j ∈ ((reorderNewList s id t moved).enum).map
          (fun p => { p.2 with order := (p.1 : Int) }) := (hfold.mem_iff).mp hjmem
      rcases List.mem_map.mp hjin with ⟨p, hp, hpj⟩
      have hjord : j.order = (p.1 : Int) := by rw [← hpj]
      have hpid : p.2.id = id := by rw [← hjid, ← hpj]
      -- lengths: the list without the moved job has length n - 1
      have hlenO : (sortJobsByOrder ((sortJobsIndex s.jobs).filter
          (fun j => !(j.id == id)))).length = s.jobs.length - 1 := by
        have h1 := hext.length_eq
        have h2 := hpermAll.length_eq
        have h3 := List.length_insertionSort (fun a b => a.order ≤ b.order)
          ((sortJobsIndex s.jobs).filter (fun j => !(j.id == id)))
        simp only [List.length_cons] at h1
        unfold sortJobsByOrder
        omega
      have hn1 : 1 ≤ s.jobs.length := by
        have := hpermAll.length_eq
        have h2 := hext.length_eq
        simp only [List.length_cons] at h2
        omega
      have hposval : spliceIndex (sortJobsByOrder ((sortJobsIndex s.jobs).filter
          (fun j => !(j.id == id)))).length t = t.toNat := by
        unfold spliceIndex
        rw [if_neg (by omega)]
        rw [hlenO]
        have htlt : t.toNat < s.jobs.length := by
          rw [← Int.toNat_of_nonneg ht0] at htn
          exact_mod_cast htn
        omega
      -- the moved job sits at index pos in the new list
      have hgetmoved : (reorderNewList s id t moved)[t.toNat]? = some moved := by
        rw [hNLdef, ← hposval]
        have hlentake : ((sortJobsByOrder ((sortJobsIndex s.jobs).filter
            (fun j => !(j.id == id)))).take (spliceIndex (sortJobsByOrder
              ((sortJobsIndex s.jobs).filter (fun j => !(j.id == id)))).length t)).length
            = spliceIndex (sortJobsByOrder ((sortJobsIndex s.jobs).filter
              (fun j => !(j.id == id)))).length t := by
          rw [List.length_take]
          rw [hposval, hlenO]
          have htlt : t.toNat < s.jobs.length := by
            rw [← Int.toNat_of_nonneg ht0] at htn
            exact_mod_cast htn
          omega
        rw [List.getElem?_append_right (le_of_eq hlentake)]
        rw [hlentake]
        simp
      have hgetp : (reorderNewList s id t moved)[p.1]? = some p.2 :=
        List.mem_enum_iff_getElem?.mp hp
      have hp1lt : p.1 < (reorderNewList s id t moved).length := by
        by_contra hge
        rw [List.getElem?_eq_none (by omega)] at hgetp
        exact Option.noConfusion hgetp
      have hmap1 : ((reorderNewList s id t moved).map Job.id)[p.1]?
          = ((reorderNewList s id t moved).map Job.id)[t.toNat]? := by
        rw [List.getElem?_map, List.getElem?_map, hgetp, hgetmoved]
        simp [hpid, hmid]
      have hp1pos : p.1 = t.toNat :=
        List.getElem?_inj (by rw [List.length_map]; exact hp1lt) hkeysNL hmap1
      rw [hjord, hp1pos, Int.toNat_of_nonneg ht0]

/-- C3 witness: the amended dense-range statement instantiated on the
two-job store with an in-range reorder. -/
theorem c3_witness :
    ((reorderJob twoJobsStore 1 0 1 false).2.jobs.map Job.order).Perm
      ((List.range twoJobsStore.jobs.length).map Int.ofNat) :=
  (c3_reorder_dense_amended twoJobsStore 1 0 1 (by decide) (by decide)).1

/-- A store with pairwise-distinct slugs one of which is the empty
string. -/
def emptySlugStore : Store :=
  { jobs := [⟨1, "t1", "a", .active, [], 0, 0, 0⟩, ⟨2, "t2", "", .active, [], 1, 0, 0⟩],
    candidates := [], timelines := [], assessments := [], assessmentResponses := [],
    seeded := true }

/-- C4 counterexample: starting from pairwise-distinct slugs (one of them
empty), a Patch Job setting the slug of job 1 to the empty string is
neither rejected with 400 nor left distinct: the truthiness-guarded check
is skipped and the table ends with two empty slugs. -/
theorem c4_counterexample :
    slugsNodup emptySlugStore.jobs ∧
    ((patchJob emptySlugStore 1 ⟨none, some (""), none, none, none⟩ false 9).1).isOk
      = true ∧
    ¬ slugsNodup
        ((patchJob emptySlugStore 1 ⟨none, some (""), none, none, none⟩ false 9).2.jobs) := by
  refine ⟨?_, ?_, ?_⟩
  · decide
  · decide
  · decide

/-- C4 amended: slug uniqueness is preserved by Create Job always, and by
Patch Job whenever the patched slug is absent or nonempty (in particular a
patch re-asserting the current slug); a would-be duplicate is rejected
with 400 leaving the table unchanged.  A patch setting the slug to the
empty string bypasses the truthiness-guarded uniqueness check and can
introduce duplicates. -/
theorem c4_slug_uniqueness_amended :
    (∀ s b fail now, slugsNodup s.jobs → slugsNodup ((createJob s b fail now).2.jobs)) ∧
    (∀ s b now fail, (s.jobs.find? (fun j => j.slug == b.slug)).isSome = true →
       createJob s b fail now = (.err 400 "Slug must be unique", s)) ∧
    (∀ s id p fail now, (s.jobs.map Job.id).Nodup → slugsNodup s.jobs →
       (p.slug = none ∨ ∃ sl, p.slug = some sl ∧ sl ≠ "") →
       slugsNodup ((patchJob s id p fail now).2.jobs)) ∧
    (∀ s id p fail now job sl, s.jobs.find? (fun j => j.id == id) = some job →
       p.slug = some sl → sl ≠ "" → sl ≠ job.slug →
       (s.jobs.find? (fun j => j.slug == sl)).isSome = true →
       patchJob s id p fail now = (.err 400 "Slug must be unique", s)) := by
  refine ⟨?_, ?_, ?_, ?_⟩
  · intro s b fail now hnd
    unfold createJob
    cases hfind : s.jobs.find? (fun j => j.slug == b.slug) with
    | some v =>
      simpa using hnd
    | none =>
      have hfree : ∀ j ∈ s.jobs, j.slug ≠ b.slug := by
        intro j hj
        have := List.find?_eq_none.mp hfind j hj
        simpa using this
      by_cases hf : fail = true
      · simpa [hf] using hnd
      · have hf2 : fail = false := by simpa using hf
        simp only [hf2, List.find?_eq_none, Bool.false_eq_true, if_false, Option.isSome_none]
        simp only [slugsNodup, List.map_append, List.map_cons, List.map_nil]
        rw [List.nodup_append]
        refine ⟨hnd, List.nodup_singleton _, ?_⟩
        intro a ha hb
        rcases List.mem_map.mp ha with ⟨j, hj, hval⟩
        have hab : a = b.slug := by simpa using hb
        exact hfree j hj (hval.symm ▸ hab ▸ rfl)
  · intro s b now fail h
    unfold createJob
    simp [h]
  · intro s id p fail now hids hnd hps
    unfold patchJob
    cases hfind : s.jobs.find? (fun j => j.id == id) with
    | none => simpa using hnd
    | some job =>
      have hjid : job.id = id := by simpa using List.find?_some hfind
      have hjmem : job ∈ s.jobs := List.mem_of_find?_eq_some hfind
      have hupid : (applyJobPatch job p now).id = job.id := rfl
      rcases hps with hp | ⟨sl, hp, hslne⟩
      · -- absent slug: check skipped, slug unchanged
        have hupslug : (applyJobPatch job p now).slug = job.slug := by
          simp [applyJobPatch, hp]
        simp only [hp]
        by_cases hf : fail = true
        · simpa [hf] using hnd
        · have hf2 : fail = false := by simpa using hf
          simp only [hf2, Bool.false_eq_true, if_false]
          simpa using patch_put_slugs_same s job _ hids hnd hjmem hupid hupslug
      · by_cases hsj : sl = job.slug
        · -- re-asserting the current slug: check skipped, slug unchanged
          have hupslug : (applyJobPatch job p now).slug = job.slug := by
            simp [applyJobPatch, hp, hsj]
          simp only [hp, hslne, hsj]
          by_cases hf : fail = true
          · simpa [hf] using hnd
          · have hf2 : fail = false := by simpa using hf
            simp only [hf2]
            simpa [hslne] using patch_put_slugs_same s job _ hids hnd hjmem hupid hupslug
        · cases hdup : s.jobs.find? (fun j => j.slug == sl) with
          | some v =>
            simpa [hp, hslne, hsj, hdup] using hnd
          | none =>
            have hfree : ∀ r ∈ s.jobs, r.slug ≠ (applyJobPatch job p now).slug := by
              have hupslug : (applyJobPatch job p now).slug = sl := by
                simp [applyJobPatch, hp]
              rw [hupslug]
              intro r hr
              have := List.find?_eq_none.mp hdup r hr
              simpa using this
            by_cases hf : fail = true
            · simpa [hp, hslne, hsj, hdup, hf] using hnd
            · have hf2 : fail = false := by simpa using hf
              simpa [hp, hslne, hsj, hdup, hf2] using
                patch_put_slugs_fresh s job _ hids hnd hjmem hupid hfree
  · intro s id p fail now job sl hfind hp hslne hsj hiss
    unfold patchJob
    rw [hfind]
    simp [hp, hslne, hsj, hiss]

/-- C4 witness: on the two-job store, a patch to a fresh nonempty slug
preserves distinctness, and a patch that would duplicate slug a is
rejected with the table unchanged. -/
theorem c4_witness :
    slugsNodup ((patchJob emptySlugStore 1 ⟨none, some ("c"), none, none, none⟩ false 9).2.jobs) ∧
    patchJob emptySlugStore 2 ⟨none, some ("a"), none, none, none⟩ false 9
      = (.err 400 "Slug must be unique", emptySlugStore) :=
  ⟨c4_slug_uniqueness_amended.2.2.1 emptySlugStore 1
      ⟨none, some ("c"), none, none, none⟩ false 9 (by decide) (by decide)
      (Or.inr ⟨"c", rfl, by decide⟩),
   c4_slug_uniqueness_amended.2.2.2 emptySlugStore 2
      ⟨none, some ("a"), none, none, none⟩ false 9
      ⟨2, "t2", "", .active, [], 1, 0, 0⟩ "a" (by decide) rfl (by decide) (by decide)
      (by decide)⟩

/-- C5: for page ≥ 1 and pageSize ≥ 1 the list result carries page and
pageSize back, total is the pre-pagination cardinality, pages is the least
page count covering total but at least 1, data is the slice
filtered[(page-1)*pageSize : page*pageSize] (characterised by its length
and elementwise lookup), an out-of-range page yields empty data with the
same total and pages, and GET /jobs is exactly filter, then sort, then
paginate, with total the filtered-set cardinality. -/
theorem c5_pagination (page pageSize : Nat) (hp : 1 ≤ page) (hps : 1 ≤ pageSize) :
    (∀ (α : Type) (items : List α),
      (paginate items page pageSize).total = items.length ∧
      (paginate items page pageSize).page = page ∧
      (paginate items page pageSize).pageSize = pageSize ∧
      (paginate items page pageSize).data.length =
        min pageSize (items.length - (page - 1) * pageSize) ∧
      (∀ i, i < (paginate items page pageSize).data.length →
        (paginate items page pageSize).data[i]? = items[(page - 1) * pageSize + i]?) ∧
      (items.length ≤ (page - 1) * pageSize → (paginate items page pageSize).data = []) ∧
      1 ≤ (paginate items page pageSize).pages ∧
      items.length ≤ (paginate items page pageSize).pages * pageSize ∧
      (1 < (paginate items page pageSize).pages →
        ((paginate items page pageSize).pages - 1) * pageSize < items.length)) ∧
    (∀ (s : Store) (search status : String) (tags : List String) (sort : String),
      listJobs s search status tags page pageSize sort =
        paginate (jobsSortStep sort (jobsFilterStep s.jobs search status tags))
          page pageSize ∧
      (listJobs s search status tags page pageSize sort).total =
        (jobsFilterStep s.jobs search status tags).length) := by
  have key1 : ∀ t ps A r : Nat, A + r = t + ps - 1 → r < ps → 1 ≤ ps → t ≤ A := by
    intro t ps A r h1 h2 h3
    omega
  have key2 : ∀ t ps A r : Nat, A + r = t + ps - 1 → r < ps → 1 ≤ ps →
      2 * ps ≤ A → A - ps < t := by
    intro t ps A r h1 h2 h3 h4
    omega
  constructor
  · intro α items
    refine ⟨rfl, rfl, rfl, ?_, ?_, ?_, ?_, ?_, ?_⟩
    · simp [paginate]
    · intro i hi
      have hi2 : i < pageSize := by
        have := hi
        simp [paginate] at this
        omega
      show ((items.drop ((page - 1) * pageSize)).take pageSize)[i]? = _
      rw [List.getElem?_take_of_lt hi2, List.getElem?_drop]
    · intro h
      show ((items.drop ((page - 1) * pageSize)).take pageSize) = []
      rw [List.drop_eq_nil_of_le h, List.take_nil]
    · exact Nat.le_max_left 1 _
    · show items.length ≤ max 1 ((items.length + pageSize - 1) / pageSize) * pageSize
      set t := items.length with ht
      set q := (t + pageSize - 1) / pageSize with hq
      have hdm : pageSize * q + (t + pageSize - 1) % pageSize = t + pageSize - 1 :=
        Nat.div_add_mod _ _
      have hr : (t + pageSize - 1) % pageSize < pageSize := Nat.mod_lt _ (by omega)
      rcases Nat.eq_zero_or_pos q with hq0 | hq1
      · rw [hq0]
        simp only [Nat.max_eq_left (by omega : 0 ≤ 1), Nat.one_mul]
        rw [hq0] at hdm
        simp only [Nat.mul_zero, Nat.zero_add] at hdm
        omega
      · rw [Nat.max_eq_right hq1, Nat.mul_comm]
        exact key1 t pageSize (pageSize * q) _ hdm hr hps
    · intro hpg
      have hpg2 : 1 < max 1 ((items.length + pageSize - 1) / pageSize) := hpg
      show (max 1 ((items.length + pageSize - 1) / pageSize) - 1) * pageSize < items.length
      set t := items.length with ht
      set q := (t + pageSize - 1) / pageSize with hq
      have hdm : pageSize * q + (t + pageSize - 1) % pageSize = t + pageSize - 1 :=
        Nat.div_add_mod _ _
      have hr : (t + pageSize - 1) % pageSize < pageSize := Nat.mod_lt _ (by omega)
      have hq2 : 2 ≤ q := by omega
      rw [Nat.max_eq_right (by omega : 1 ≤ q), Nat.sub_one_mul, Nat.mul_comm]
      have h2ps : 2 * pageSize ≤ pageSize * q := by
        calc 2 * pageSize = pageSize * 2 := Nat.mul_comm 2 pageSize
        _ ≤ pageSize * q := Nat.mul_le_mul_left pageSize hq2
      exact key2 t pageSize (pageSize * q) _ hdm hr hps h2ps
  · intro s search status tags sort
    constructor
    · rfl
    · show (paginate (jobsSortStep sort (jobsFilterStep s.jobs search status tags))
          page pageSize).total = _
      simp only [paginate, jobsSortStep]
      by_cases h1 : sort = "order" <;> by_cases h2 : sort = "createdAt:desc" <;>
        simp [h1, h2, List.length_insertionSort, sortJobsByOrder, sortJobsByCreatedDesc]

/-- C5 witness: the theorem instantiated at page 2, pageSize 3, on a
five-element list. -/
theorem c5_witness :
    (paginate ([10, 20, 30, 40, 50] : List Nat) 2 3).total
      = ([10, 20, 30, 40, 50] : List Nat).length ∧
    (paginate ([10, 20, 30, 40, 50] : List Nat) 2 3).data[0]?
      = ([10, 20, 30, 40, 50] : List Nat)[(2 - 1) * 3 + 0]? :=
  ⟨((c5_pagination 2 3 (by decide) (by decide)).1 Nat _).1,
   ((c5_pagination 2 3 (by decide) (by decide)).1 Nat _).2.2.2.2.1 0 (by decide)⟩

/-- C8: a successful Patch Candidate on an existing candidate whose patch
carries stage b appends exactly one stage-change event from the old stage
to b when b differs from it, and appends nothing when the stage is
unchanged. -/
theorem c8_stage_change_event (s : Store) (id : Nat) (p : CandidatePatch) (now : Int)
    (cand : Candidate) (b : CandidateStage)
    (hfind : s.candidates.find? (fun c => c.id == id) = some cand)
    (hstage : p.stage = some b) :
    ((patchCandidate s id p false now).1).isOk = true ∧
    (b ≠ cand.stage → (patchCandidate s id p false now).2.timelines =
        s.timelines ++ [⟨id, .stage_change, some cand.stage, some b, none, now⟩]) ∧
    (b = cand.stage → (patchCandidate s id p false now).2.timelines = s.timelines) := by
  unfold patchCandidate
  rw [hfind, hstage]
  by_cases hb : b = cand.stage <;> simp [hb, ApiResult.isOk]

/-- C8 witness: the theorem instantiated on a one-candidate store patched
from applied to screen, and the unchanged-stage side on a patch
re-asserting applied. -/
theorem c8_witness :
    ((patchCandidate oneCandStore 1 ⟨none, none, some .screen, none⟩ false 7).2.timelines =
      oneCandStore.timelines ++
        [⟨1, .stage_change, some .applied, some .screen, none, 7⟩]) ∧
    ((patchCandidate oneCandStore 1 ⟨none, none, some .applied, none⟩ false 7).2.timelines =
      oneCandStore.timelines) :=
  ⟨(c8_stage_change_event oneCandStore 1 ⟨none, none, some .screen, none⟩ 7
      ⟨1, none, "Ada", "a@x", .applied, 0, 0⟩ .screen (by decide) rfl).2.1 (by decide),
   (c8_stage_change_event oneCandStore 1 ⟨none, none, some .applied, none⟩ 7
      ⟨1, none, "Ada", "a@x", .applied, 0, 0⟩ .applied (by decide) rfl).2.2 rfl⟩
